import Mathlib

/-!
Verification of the spindrift packaging module.

This file gives a shallow embedding, in Lean, of the parts of
`src/lib/spindrift/packager.py` that the verified properties are about:

* the Python string primitives the module uses (`lower`, `strip`,
  `startswith`, `endswith`, `replace`, slicing, `os.path.join`,
  `sorted(list(set(...)))`),
* the ELF dynamic-section output parser (`parse_elf_dependency_line`,
  `get_dependencies_from_elf_data`) and the `ldconfig -v` search-path parser,
* the shared-object closure computation (`find_shared_objects`,
  `find_shared_object_dependencies`, `is_ignored_shared_object`),
* the wheel-suffix resolver (`_get_wheel_suffixes`), the wheel cache
  (`load_cached_wheels`, `_install_cached_manylinux_version`), the cascading
  installer (`install_manylinux_version`,
  `download_and_install_manylinux_version`, `_install_dependency`), and
* the archive builder (`create_zip_bundle`).

External effects (the filesystem, subprocesses, the network) are abstracted
as oracle parameters; Python exceptions are modelled with `Except String`,
and the unbounded recursion of `find_shared_objects` is modelled with an
explicit fuel parameter, where `none` means the recursion exceeds every
finite depth.
-/

set_option maxHeartbeats 2000000
set_option maxRecDepth 10000
set_option linter.unusedVariables false

namespace Spindrift

/-! ## Python string primitives -/

/-- Lexicographic comparison of character lists by code point, the order
Python uses to compare strings. -/
def charsLe : List Char → List Char → Bool
  | [], _ => true
  | _ :: _, [] => false
  | a :: as, b :: bs =>
    if a < b then true
    else if b < a then false
    else charsLe as bs

/-- Python string order `a <= b` (code-point lexicographic). -/
def pyStrLe (a b : String) : Prop := charsLe a.data b.data = true

instance : DecidableRel pyStrLe := fun a b => instDecidableEqBool _ _

/-- Python `str.lower` (over the ASCII names handled by the packager). -/
def pyLower (s : String) : String := String.mk (s.data.map Char.toLower)

/-- The character class of the regex `\s` (also what `str.strip()` removes
on the ASCII data handled here). -/
def isPySpace (c : Char) : Bool :=
  c == ' ' || c == '\t' || c == '\n' || c == '\r' || c == '\x0b' || c == '\x0c'

/-- Python `str.strip()`. -/
def pyStrip (s : String) : String :=
  String.mk (((s.data.dropWhile isPySpace).reverse.dropWhile isPySpace).reverse)

/-- Python `str.strip(c)` for a one-character argument. -/
def pyStripChar (c : Char) (s : String) : String :=
  String.mk (((s.data.dropWhile (· == c)).reverse.dropWhile (· == c)).reverse)

/-- Python `str.startswith`. -/
def pyStartsWith (s p : String) : Bool := p.data.isPrefixOf s.data

/-- Python `str.endswith`. -/
def pyEndsWith (s p : String) : Bool := p.data.isSuffixOf s.data

/-- Substring containment over character lists. -/
def hasSubList (pat : List Char) : List Char → Bool
  | [] => pat.isEmpty
  | l@(_ :: rest) => pat.isPrefixOf l || hasSubList pat rest

/-- Python `pat in s` substring containment. -/
def hasSub (s pat : String) : Bool := hasSubList pat.data s.data

/-- Python `str.replace`, on character lists, with an explicit fuel so the
recursion is structural (the fuel is the input length, which always
suffices). -/
def replaceListF (pat rep : List Char) : Nat → List Char → List Char
  | 0, l => l
  | fuel + 1, l =>
    match l with
    | [] => []
    | c :: rest =>
      if !pat.isEmpty && pat.isPrefixOf l then
        rep ++ replaceListF pat rep fuel (l.drop pat.length)
      else
        c :: replaceListF pat rep fuel rest

/-- Python `s.replace(pat, rep)` (for the nonempty patterns the module uses). -/
def pyReplace (s pat rep : String) : String :=
  String.mk (replaceListF pat.data rep.data s.data.length s.data)

/-- Python `s[:n]` (character slicing). -/
def pyTake (s : String) (n : Nat) : String := String.mk (s.data.take n)

/-- Python `s[n:]` (character slicing). -/
def pyDrop (s : String) (n : Nat) : String := String.mk (s.data.drop n)

/-- The two-argument `os.path.join` on POSIX paths, as used by the module. -/
def osPathJoin (a b : String) : String :=
  if pyStartsWith b "/" then b
  else if a = "" then b
  else if pyEndsWith a "/" then a ++ b
  else a ++ "/" ++ b

/-- Python `sorted(list(set(ret)))` for a list of strings: the distinct
elements in code-point lexicographic order. -/
def sortedDedup (l : List String) : List String :=
  List.insertionSort pyStrLe l.dedup

/-! ## The ELF dynamic-section parser

`parse_elf_dependency_line` applies the regex
`^(0x[0-9a-f]+)\s+[(](\w+)[)]\s+(.+$)$` to one line of `readelf -d` output.
The embedding is the equivalent deterministic parse: each greedy character
class below is followed by a delimiter that the class cannot consume, so no
backtracking is ever needed on the stripped lines this parser receives. -/

/-- The character class `[0-9a-f]` of the regex. -/
def isHexLowerDigit (c : Char) : Bool := c.isDigit || ('a' ≤ c && c ≤ 'f')

/-- The character class `\w` of the regex (on ASCII data). -/
def isWordChar (c : Char) : Bool := c.isAlphanum || c == '_'

/-- Embedding of `parse_elf_dependency_line`: `some (tag, kind, value)` for
the three regex groups on a match, `none` (the Python `(None, None, None)`)
otherwise. -/
def parse_elf_dependency_line (line : String) : Option (String × String × String) :=
  match line.data with
  | '0' :: 'x' :: rest =>
    let hexPart := rest.takeWhile isHexLowerDigit
    let afterHex := rest.dropWhile isHexLowerDigit
    if hexPart.isEmpty then none
    else
      let ws1 := afterHex.takeWhile isPySpace
      let afterWs1 := afterHex.dropWhile isPySpace
      if ws1.isEmpty then none
      else
        match afterWs1 with
        | '(' :: rest2 =>
          let word := rest2.takeWhile isWordChar
          let afterWord := rest2.dropWhile isWordChar
          if word.isEmpty then none
          else
            match afterWord with
            | ')' :: rest3 =>
              let ws2 := rest3.takeWhile isPySpace
              let value := rest3.dropWhile isPySpace
              if ws2.isEmpty then none
              else if value.isEmpty then none
              else if value.contains '\n' then none
              else
                some (String.mk ('0' :: 'x' :: hexPart), String.mk word,
                  String.mk value)
            | _ => none
        | _ => none
  | _ => none

/-- Embedding of `get_dependencies_from_elf_data`. A line starting with the
`DT_NEEDED` tag value `0x0000000000000001` must parse into a
`Shared library: [...]` entry; a non-matching such line raises (in Python
either the explicit `ValueError` or the `AttributeError` from calling
`startswith` on `None`), which is modelled with `Except.error`. All other
lines are skipped. -/
def get_dependencies_from_elf_data : List String → Except String (List String)
  | [] => Except.ok []
  | line :: rest =>
    if pyStartsWith line "0x0000000000000001" then
      match parse_elf_dependency_line line with
      | none =>
        Except.error "AttributeError: NoneType object has no attribute startswith"
      | some (_, _, value) =>
        if pyStartsWith value "Shared library:" then
          let library := pyStripChar ']' (pyStripChar '[' (pyDrop value 16))
          match get_dependencies_from_elf_data rest with
          | Except.error e => Except.error e
          | Except.ok libs => Except.ok (library :: libs)
        else
          Except.error ("unexpected value " ++ value ++
            " while processing elf depedency data " ++ line)
    else get_dependencies_from_elf_data rest

/-- Embedding of the `ldconfig -v` output loop in `install_local_package`
(lines 744-758): indented lines are skipped, every other line is stripped of
surrounding whitespace and colons and collected as a search path. -/
def parse_ld_library_paths (lines : List String) : List String :=
  lines.foldl
    (fun acc line =>
      if pyStartsWith line "\t" then acc
      else acc ++ [pyStripChar ':' (pyStrip line)])
    []

/-! ## The shared-object closure computation -/

/-- Embedding of `is_ignored_shared_object`. -/
def is_ignored_shared_object (dependency : String)
    (ignored_dependencies : Option (List String)) : Bool :=
  match ignored_dependencies with
  | none => false
  | some igs => igs.any (fun ig => pyStartsWith dependency ig)

/-- The external world seen by the shared-object resolver: which paths exist
on the filesystem, and the stdout lines `readelf -d` produces for a path. -/
structure SOEnv where
  pathExists : String → Bool
  elfLines : String → List String

/-- Embedding of `readelf`: run the external tool and strip each stdout
line. -/
def readelf (env : SOEnv) (library_path : String) : List String :=
  (env.elfLines library_path).map pyStrip

/-- The `if ignored_dependencies is not None` filtering loop of
`find_shared_object_dependencies`. -/
def filterIgnored (dependencies : List String)
    (ignored_dependencies : Option (List String)) : List String :=
  match ignored_dependencies with
  | none => dependencies
  | some igs =>
    dependencies.filter (fun d => !is_ignored_shared_object d (some igs))

/-- Embedding of `find_shared_object_dependencies`: scan the search paths in
order; at the first path where the library exists, introspect it and filter
the ignored names; if no path has it, return the empty list. -/
def find_shared_object_dependencies (env : SOEnv) (shared_object : String)
    (ld_library_paths : List String) (ignored_dependencies : Option (List String)) :
    Except String (List String) :=
  match ld_library_paths with
  | [] => Except.ok []
  | ld_library_path :: rest =>
    if env.pathExists (osPathJoin ld_library_path shared_object) then
      match get_dependencies_from_elf_data
          (readelf env (osPathJoin ld_library_path shared_object)) with
      | Except.error e => Except.error e
      | Except.ok dependencies =>
        Except.ok (filterIgnored dependencies ignored_dependencies)
    else find_shared_object_dependencies env shared_object rest ignored_dependencies

/-- The loop body of `find_shared_objects`: walk the worklist, and for each
entry emit it followed by the recursive closure of its dependencies, where
`recurse` stands for the recursive call at one less fuel. -/
def fsoGo (env : SOEnv) (paths : List String) (ignored : Option (List String))
    (recurse : List String → Option (Except String (List String))) :
    List String → Option (Except String (List String))
  | [] => some (Except.ok [])
  | so :: rest =>
    match find_shared_object_dependencies env so paths ignored with
    | Except.error e => some (Except.error e)
    | Except.ok deps =>
      match recurse deps with
      | none => none
      | some (Except.error e) => some (Except.error e)
      | some (Except.ok sub) =>
        match fsoGo env paths ignored recurse rest with
        | none => none
        | some (Except.error e) => some (Except.error e)
        | some (Except.ok subRest) => some (Except.ok (so :: sub ++ subRest))

/-- Embedding of `find_shared_objects`. The Python function recurses with no
visited set; the fuel parameter bounds the recursion depth, and a result of
`none` means the recursion exceeds every finite depth, i.e. the Python call
does not terminate. Each level returns `sorted(list(set(ret)))` of the
accumulated names. -/
def find_shared_objects (env : SOEnv) (paths : List String)
    (ignored : Option (List String)) :
    Nat → List String → Option (Except String (List String))
  | 0, _ => none
  | fuel + 1, shared_objects =>
    match fsoGo env paths ignored (find_shared_objects env paths ignored fuel)
        shared_objects with
    | some (Except.ok ret) => some (Except.ok (sortedDedup ret))
    | other => other

/-- The dependency list `find_shared_object_dependencies` computes for a
library, defaulting to `[]` on the error outcome. -/
def depsOk (env : SOEnv) (paths : List String) (ignored : Option (List String))
    (so : String) : List String :=
  match find_shared_object_dependencies env so paths ignored with
  | Except.ok l => l
  | Except.error _ => []

/-- One introspection step: `b` is among the (filtered) dependencies of `a`. -/
def depStep (env : SOEnv) (paths : List String) (ignored : Option (List String))
    (a b : String) : Prop :=
  b ∈ depsOk env paths ignored a

/-- `b` is reachable from `a` along introspected dependencies. -/
def Reaches (env : SOEnv) (paths : List String) (ignored : Option (List String)) :
    String → String → Prop :=
  Relation.ReflTransGen (depStep env paths ignored)

/-! ## The wheel-suffix resolver and the cascading installer -/

/-- A dependency as the installer sees it: the `key` (normalized name) and
`version` of a `pkg_resources` distribution. -/
structure Dependency where
  key : String
  version : String

/-- The `available_runtimes` list of `_get_wheel_suffixes`. -/
def available_runtimes : List String :=
  ["python2.7", "python3.6", "python3.7", "python3.8", "python3.9"]

/-- Embedding of `_get_wheel_suffixes`, including the `warnings.warn` side
effect as a boolean in the result: `Except.error` for the `ValueError` on a
runtime of the wrong shape, otherwise `Except.ok (warned, suffixes)` where
`warned` records whether the unknown-runtime warning was emitted. -/
def _get_wheel_suffixes_core (runtime : String) : Except String (Bool × List String) :=
  if !(pyStartsWith runtime "python2." || pyStartsWith runtime "python3.") then
    Except.error ("Runtime must start with python2. or python3. (got " ++ runtime ++ ")")
  else
    let warned := !(available_runtimes.contains runtime)
    let version := pyReplace (pyReplace runtime "python" "") "." ""
    let base :=
      if pyStartsWith runtime "python2." then
        ["cp" ++ version ++ "-cp" ++ version ++ "mu-manylinux2010_x86_64.whl",
         "cp" ++ version ++ "-cp" ++ version ++ "mu-manylinux1_x86_64.whl"]
      else
        ["cp" ++ version ++ "-cp" ++ version ++ "m-manylinux_2_17_x86_64.manylinux2014_x86_64.whl",
         "cp" ++ version ++ "-cp" ++ version ++ "-manylinux_2_17_x86_64.manylinux2014_x86_64.whl",
         "cp" ++ version ++ "-cp" ++ version ++ "m-manylinux2010_x86_64.whl",
         "cp" ++ version ++ "-cp" ++ version ++ "-manylinux2010_x86_64.whl",
         "cp" ++ version ++ "-cp" ++ version ++ "m-manylinux1_x86_64.whl",
         "cp" ++ version ++ "-cp" ++ version ++ "-manylinux1_x86_64.whl",
         "cp" ++ version ++ "-abi3-manylinux2010_x86_64.whl",
         "cp" ++ version ++ "-abi3-manylinux1_x86_64.whl",
         "cp34-abi3-manylinux1_x86_64.whl",
         "cp34-abi3-manylinux2010_x86_64.whl"]
    Except.ok (warned,
      base ++ ["py" ++ pyTake version 1 ++ "-none-any.whl", "py2.py3-none-any.whl"])

/-- The suffix list of `_get_wheel_suffixes`, with the warning flag dropped. -/
def _get_wheel_suffixes (runtime : String) : Except String (List String) :=
  match _get_wheel_suffixes_core runtime with
  | Except.error e => Except.error e
  | Except.ok p => Except.ok p.2

/-- Embedding of `load_cached_wheels`. The `os.walk` of the cache directory
is abstracted as a list of `(root, filename)` pairs; the Python dict is
modelled as an association list (only key membership and the stored path
matter). Every `.whl` file is keyed under both its literal filename and its
lowercased filename. -/
def load_cached_wheels (walkFiles : List (String × String)) : List (String × String) :=
  walkFiles.foldl
    (fun ret rf =>
      if pyEndsWith rf.2 ".whl" then
        ret ++ [(rf.2, osPathJoin rf.1 rf.2), (pyLower rf.2, osPathJoin rf.1 rf.2)]
      else ret)
    []

/-- Python `key in dict` for the association-list dict model. -/
def dictContains (d : List (String × String)) (k : String) : Bool :=
  d.any (fun e => e.1 == k)

/-- The `"{}-{}-{}".format(key, version, suffix)` wheel name. -/
def mkWheelName (key version suffix : String) : String :=
  key ++ "-" ++ version ++ "-" ++ suffix

/-- The suffix loop of `_install_cached_manylinux_version`: for each suffix
in priority order, look up the literal wheel name and then the name with
hyphens replaced by underscores, both lowercased, in the cache dict. -/
def findCachedWheel (available_wheels : List (String × String))
    (key version : String) : List String → Option String
  | [] => none
  | suffix :: rest =>
    let maybe1 := mkWheelName key version suffix
    if dictContains available_wheels (pyLower maybe1) then some maybe1
    else
      let maybe2 := mkWheelName (pyReplace key "-" "_") version suffix
      if dictContains available_wheels (pyLower maybe2) then some maybe2
      else findCachedWheel available_wheels key version rest

/-- Embedding of `_install_cached_manylinux_version` (the unpacking of the
found wheel into the staging tree is a side effect outside the model):
`Except.ok true` on a cache hit, `Except.ok false` on a miss, `Except.error`
when `_get_wheel_suffixes` raises. -/
def _install_cached_manylinux_version (walkFiles : List (String × String))
    (dep : Dependency) (runtime : String) : Except String Bool :=
  match _get_wheel_suffixes runtime with
  | Except.error e => Except.error e
  | Except.ok suffixes =>
    match findCachedWheel (load_cached_wheels walkFiles) dep.key dep.version suffixes with
    | none => Except.ok false
    | some _ => Except.ok true

/-- The `releases` mapping of the pypi JSON document for one package:
version to the list of distribution URLs. -/
structure PypiData where
  releases : List (String × List String)

/-- Python `version in releases` / `releases[version]` dict lookup. -/
def lookupRelease (rels : List (String × List String)) (v : String) :
    Option (List String) :=
  match rels.find? (fun r => r.1 == v) with
  | none => none
  | some r => some r.2

/-- The URL scan of `download_and_install_manylinux_version`: for each
suffix in priority order, the first release URL ending with it. -/
def findMatchingUrl (release_urls : List String) : List String → Option String
  | [] => none
  | suffix :: rest =>
    match release_urls.find? (fun info => pyEndsWith info suffix) with
    | some url => some url
    | none => findMatchingUrl release_urls rest

/-- The external world seen by the installer: the cache directory walk, the
pypi index (`Except.error` a transport error, `Except.ok none` a 404,
`Except.ok (some data)` a parsed document), the artifact download, and the
whole of `install_local_package` (a filesystem-driven procedure abstracted
by its success / raised-exception outcome). -/
structure InstallEnv where
  cacheWalk : List (String × String)
  pypi : String → Except String (Option PypiData)
  fetch : String → Except String Unit
  localInstall : Dependency → Except String Bool

/-- Embedding of `install_manylinux_version`. -/
def install_manylinux_version (env : InstallEnv) (dep : Dependency)
    (runtime : String) : Except String Bool :=
  if dep.key == "cryptography" then Except.ok false
  else _install_cached_manylinux_version env.cacheWalk dep runtime

/-- Embedding of `download_and_install_manylinux_version`. -/
def download_and_install_manylinux_version (env : InstallEnv) (dep : Dependency)
    (runtime : String) : Except String Bool :=
  if dep.key == "cryptography" then Except.ok false
  else
    match env.pypi dep.key with
    | Except.error e => Except.error e
    | Except.ok none => Except.ok false
    | Except.ok (some data) =>
      match _get_wheel_suffixes runtime with
      | Except.error e => Except.error e
      | Except.ok wheel_suffixes =>
        match lookupRelease data.releases dep.version with
        | none => Except.ok false
        | some urls =>
          match findMatchingUrl urls wheel_suffixes with
          | none => Except.ok false
          | some url =>
            match env.fetch url with
            | Except.error e => Except.error e
            | Except.ok _ => Except.ok true

/-- The tail of `_install_dependency` after both precompiled strategies have
failed: try `install_local_package`, and raise the
unresolvable-dependency error naming key and version if it reports failure. -/
def _install_dependency_local (env : InstallEnv) (dep : Dependency) :
    Except String String :=
  match env.localInstall dep with
  | Except.error e => Except.error e
  | Except.ok true => Except.ok "install_local_package"
  | Except.ok false =>
    Except.error ("Unable to find suitable source for " ++ dep.key ++ "==" ++ dep.version)

/-- Embedding of `_install_dependency`: the three strategies in order, the
download strategy only when `download` is set, returning the name of the
first strategy that succeeded (the `_mangle_package` call is a source
rewrite in the staging tree with no observable result here). -/
def _install_dependency (env : InstallEnv) (runtime : String) (dep : Dependency)
    (download : Bool) : Except String String :=
  match install_manylinux_version env dep runtime with
  | Except.error e => Except.error e
  | Except.ok true => Except.ok "install_manylinux_version"
  | Except.ok false =>
    if download then
      match download_and_install_manylinux_version env dep runtime with
      | Except.error e => Except.error e
      | Except.ok true => Except.ok "download_and_install_manylinux_version"
      | Except.ok false => _install_dependency_local env dep
    else _install_dependency_local env dep

/-- A dependency name is exempt from the precompiled strategies when both
`install_manylinux_version` and `download_and_install_manylinux_version`
report failure for it on every environment, runtime and version. -/
def precompiledExempt (name : String) : Prop :=
  ∀ (env : InstallEnv) (runtime version : String),
    install_manylinux_version env ⟨name, version⟩ runtime = Except.ok false ∧
    download_and_install_manylinux_version env ⟨name, version⟩ runtime = Except.ok false

/-! ## Suffix-ordering vocabulary for the platform-tag list -/

/-- A fully architecture-independent tag. -/
def isArchIndependentTag (s : String) : Bool := pyEndsWith s "-none-any.whl"

/-- An ABI-agnostic (stable-ABI) wide-compatibility tag. -/
def isAbi3Tag (s : String) : Bool := hasSub s "-abi3-"

/-- The platform baseline carried by a tag, newer baselines ranked higher. -/
def platBaselineRank (s : String) : Nat :=
  if hasSub s "manylinux_2_17" then 3
  else if hasSub s "manylinux2010" then 2
  else if hasSub s "manylinux1" then 1
  else 0

/-- Specificity class of a tag: 0 = exact interpreter ABI + platform,
1 = ABI-agnostic wide compatibility, 2 = architecture-independent. -/
def tagSpecificityClass (s : String) : Nat :=
  if isArchIndependentTag s then 2 else if isAbi3Tag s then 1 else 0

/-- The list is non-decreasing. -/
def natsNonDecreasing : List Nat → Bool
  | [] => true
  | [_] => true
  | a :: b :: rest => Nat.ble a b && natsNonDecreasing (b :: rest)

/-- The list is non-increasing. -/
def natsNonIncreasing : List Nat → Bool
  | [] => true
  | [_] => true
  | a :: b :: rest => Nat.ble b a && natsNonIncreasing (b :: rest)

/-- The most-specific-first discipline claimed for a platform-tag list:
specificity classes only grow along the list (exact-ABI tags first, then
ABI-agnostic tags, then architecture-independent tags), within the
exact-ABI tags the platform baseline never gets newer again, and the list
ends (non-vacuously) with an architecture-independent tag. -/
def suffixesWellOrdered (l : List String) : Bool :=
  natsNonDecreasing (l.map tagSpecificityClass) &&
  natsNonIncreasing
    ((l.filter (fun s => tagSpecificityClass s == 0)).map platBaselineRank) &&
  (match l.getLast? with
   | some s => isArchIndependentTag s
   | none => false)

/-! ## The archive builder -/

/-- A file of the staging tree as `os.walk` presents it to
`create_zip_bundle`: its path below the staging root and its original
permission bits (which the builder never reads). -/
structure StagedFile where
  relPath : String
  mode : Nat

/-- The fields of the `zipfile.ZipInfo` that `create_zip_bundle` sets. -/
structure ZipEntryInfo where
  name : String
  external_attr : Nat
  compress_type : Nat
deriving DecidableEq

/-- `zipfile.ZIP_DEFLATED`. -/
def ZIP_DEFLATED : Nat := 8

/-- Embedding of `create_zip_bundle`: walk the staging tree and emit one
entry per file, named by the walk path with the staging-root text sliced
off and leading separators stripped, with the fixed `0o755 << 16` external
attributes (the file contents are copied verbatim and are outside the
model). -/
def create_zip_bundle (path : String) (files : List StagedFile) : List ZipEntryInfo :=
  files.map (fun f =>
    let real_file_path := osPathJoin path f.relPath
    let truncated := pyDrop real_file_path path.length
    let truncated := String.mk (truncated.data.dropWhile (· == '/'))
    { name := truncated
      external_attr := 0o755 <<< 16
      compress_type := ZIP_DEFLATED })

/-! ## Concrete environments used to instantiate the theorems -/

/-- The `ignored_shared_objects` list of `install_local_package`. -/
def stdIgnored : List String := ["libc.so", "libz.so", "ld-linux-x86-64.so"]

/-- A filesystem with two shared objects that need each other: `liba.so`
and `libb.so` under `/lib`, each declaring the other as `DT_NEEDED`. -/
def cyclicEnv : SOEnv where
  pathExists := fun p => p == "/lib/liba.so" || p == "/lib/libb.so"
  elfLines := fun p =>
    if p == "/lib/liba.so" then
      ["0x0000000000000001 (NEEDED) Shared library: [libb.so]"]
    else if p == "/lib/libb.so" then
      ["0x0000000000000001 (NEEDED) Shared library: [liba.so]"]
    else []

/-- A filesystem on which no library path exists at all. -/
def emptyEnv : SOEnv where
  pathExists := fun _ => false
  elfLines := fun _ => []

/-- An installer environment whose index offers, for every package name, a
release `1.0` with one wheel artifact carrying the most specific
`python3.6` platform tag; the cache is empty and the local install fails. -/
def probeEnv : InstallEnv where
  cacheWalk := []
  pypi := fun _ =>
    Except.ok (some ⟨[("1.0",
      ["cp36-cp36m-manylinux_2_17_x86_64.manylinux2014_x86_64.whl"])]⟩)
  fetch := fun _ => Except.ok ()
  localInstall := fun _ => Except.ok false

/-- An installer environment in which every strategy reports failure: empty
cache, a 404 from the index, and a failing local install. -/
def failEnv : InstallEnv where
  cacheWalk := []
  pypi := fun _ => Except.ok none
  fetch := fun _ => Except.ok ()
  localInstall := fun _ => Except.ok false

/-! # Theorems -/

/-! ## Order facts about `pyStrLe` needed for `sortedDedup` -/

theorem charsLe_cons_iff {a b : Char} {as bs : List Char} :
    charsLe (a :: as) (b :: bs) = true ↔
      a < b ∨ (a = b ∧ charsLe as bs = true) := by
  by_cases h1 : a < b
  · simp [charsLe, h1]
  · by_cases h2 : b < a
    · have hne : a ≠ b := fun h => h1 (h ▸ h2)
      simp [charsLe, h1, h2, hne]
    · have hab : a = b := le_antisymm (not_lt.mp h2) (not_lt.mp h1)
      simp [charsLe, h1, h2, hab]

theorem charsLe_total (a : List Char) : ∀ b, charsLe a b = true ∨ charsLe b a = true := by
  induction a with
  | nil => intro b; left; rfl
  | cons x xs ih =>
    intro b
    cases b with
    | nil => right; rfl
    | cons y ys =>
      rcases lt_trichotomy x y with h | h | h
      · left; exact charsLe_cons_iff.mpr (Or.inl h)
      · rcases ih ys with h2 | h2
        · left; exact charsLe_cons_iff.mpr (Or.inr ⟨h, h2⟩)
        · right; exact charsLe_cons_iff.mpr (Or.inr ⟨h.symm, h2⟩)
      · right; exact charsLe_cons_iff.mpr (Or.inl h)

theorem charsLe_trans {a b c : List Char} (h1 : charsLe a b = true)
    (h2 : charsLe b c = true) : charsLe a c = true := by
  induction a generalizing b c with
  | nil => rfl
  | cons x xs ih =>
    cases b with
    | nil => simp [charsLe] at h1
    | cons y ys =>
      cases c with
      | nil => simp [charsLe] at h2
      | cons z zs =>
        rcases charsLe_cons_iff.mp h1 with hxy | ⟨hxy, hrest1⟩ <;>
          rcases charsLe_cons_iff.mp h2 with hyz | ⟨hyz, hrest2⟩
        · exact charsLe_cons_iff.mpr (Or.inl (lt_trans hxy hyz))
        · exact charsLe_cons_iff.mpr (Or.inl (hyz ▸ hxy))
        · exact charsLe_cons_iff.mpr (Or.inl (hxy ▸ hyz))
        · exact charsLe_cons_iff.mpr (Or.inr ⟨hxy.trans hyz, ih hrest1 hrest2⟩)

theorem charsLe_antisymm {a b : List Char} (h1 : charsLe a b = true)
    (h2 : charsLe b a = true) : a = b := by
  induction a generalizing b with
  | nil =>
    cases b with
    | nil => rfl
    | cons y ys => simp [charsLe] at h2
  | cons x xs ih =>
    cases b with
    | nil => simp [charsLe] at h1
    | cons y ys =>
      rcases charsLe_cons_iff.mp h1 with hxy | ⟨hxy, hrest1⟩ <;>
        rcases charsLe_cons_iff.mp h2 with hyx | ⟨hyx, hrest2⟩
      · exact absurd hyx (lt_asymm hxy)
      · exact absurd (hyx ▸ hxy) (lt_irrefl y)
      · exact absurd (hxy ▸ hyx) (lt_irrefl y)
      · rw [hxy, ih hrest1 hrest2]

instance : IsTotal String pyStrLe := ⟨fun a b => charsLe_total a.data b.data⟩

instance : IsTrans String pyStrLe := ⟨fun _ _ _ => charsLe_trans⟩

instance : IsAntisymm String pyStrLe :=
  ⟨fun _ _ h1 h2 => String.ext (charsLe_antisymm h1 h2)⟩

theorem sortedDedup_nodup (l : List String) : (sortedDedup l).Nodup :=
  ((List.perm_insertionSort pyStrLe l.dedup).nodup_iff).mpr (List.nodup_dedup l)

theorem sortedDedup_sorted (l : List String) : (sortedDedup l).Sorted pyStrLe :=
  List.sorted_insertionSort pyStrLe l.dedup

theorem mem_sortedDedup {x : String} {l : List String} :
    x ∈ sortedDedup l ↔ x ∈ l :=
  ((List.perm_insertionSort pyStrLe l.dedup).mem_iff).trans List.mem_dedup

theorem sorted_nodup_eq_of_mem_iff {l₁ l₂ : List String}
    (hs₁ : l₁.Sorted pyStrLe) (hs₂ : l₂.Sorted pyStrLe)
    (hn₁ : l₁.Nodup) (hn₂ : l₂.Nodup)
    (h : ∀ x, x ∈ l₁ ↔ x ∈ l₂) : l₁ = l₂ :=
  List.eq_of_perm_of_sorted ((List.perm_ext_iff_of_nodup hn₁ hn₂).mpr h) hs₁ hs₂

/-! ## C2: the cascading installer -/

/-- C2: for every dependency on which the cached, downloaded and
local-source strategies all report failure, `_install_dependency` raises
the unresolvable-dependency error naming exactly that dependency key and
version; and when a strategy succeeds, the identifier of the first
succeeding strategy in the fixed order cached, downloaded, local-source is
returned. -/
theorem C2_install_cascade (env : InstallEnv) (runtime : String)
    (dep : Dependency) (download : Bool) :
    (install_manylinux_version env dep runtime = Except.ok false →
      (download = false ∨
        download_and_install_manylinux_version env dep runtime = Except.ok false) →
      env.localInstall dep = Except.ok false →
      _install_dependency env runtime dep download =
        Except.error ("Unable to find suitable source for " ++ dep.key ++ "==" ++ dep.version)) ∧
    (install_manylinux_version env dep runtime = Except.ok true →
      _install_dependency env runtime dep download = Except.ok "install_manylinux_version") ∧
    (install_manylinux_version env dep runtime = Except.ok false →
      download = true →
      download_and_install_manylinux_version env dep runtime = Except.ok true →
      _install_dependency env runtime dep download =
        Except.ok "download_and_install_manylinux_version") ∧
    (install_manylinux_version env dep runtime = Except.ok false →
      (download = false ∨
        download_and_install_manylinux_version env dep runtime = Except.ok false) →
      env.localInstall dep = Except.ok true →
      _install_dependency env runtime dep download = Except.ok "install_local_package") := by
  refine ⟨?_, ?_, ?_, ?_⟩
  · intro h1 h2 h3
    unfold _install_dependency
    rw [h1]
    rcases h2 with h2 | h2
    · subst h2
      simp only [Bool.false_eq_true, if_false]
      unfold _install_dependency_local
      rw [h3]
    · cases download with
      | false =>
        simp only [Bool.false_eq_true, if_false]
        unfold _install_dependency_local
        rw [h3]
      | true =>
        simp only [if_true]
        rw [h2]
        unfold _install_dependency_local
        rw [h3]
  · intro h1
    unfold _install_dependency
    rw [h1]
  · intro h1 h2 h3
    subst h2
    unfold _install_dependency
    rw [h1]
    simp only [if_true]
    rw [h3]
  · intro h1 h2 h3
    unfold _install_dependency
    rw [h1]
    rcases h2 with h2 | h2
    · subst h2
      simp only [Bool.false_eq_true, if_false]
      unfold _install_dependency_local
      rw [h3]
    · cases download with
      | false =>
        simp only [Bool.false_eq_true, if_false]
        unfold _install_dependency_local
        rw [h3]
      | true =>
        simp only [if_true]
        rw [h2]
        unfold _install_dependency_local
        rw [h3]

/-- C2 witness: in `failEnv` the three strategies all report failure for
`foo==1.0` under `python3.6`, and the installer raises the error naming
`foo` and `1.0`. -/
theorem C2_install_cascade_witness :
    install_manylinux_version failEnv ⟨"foo", "1.0"⟩ "python3.6" = Except.ok false ∧
    download_and_install_manylinux_version failEnv ⟨"foo", "1.0"⟩ "python3.6" = Except.ok false ∧
    failEnv.localInstall ⟨"foo", "1.0"⟩ = Except.ok false ∧
    _install_dependency failEnv "python3.6" ⟨"foo", "1.0"⟩ true =
      Except.error "Unable to find suitable source for foo==1.0" :=
  ⟨rfl, rfl, rfl,
    (C2_install_cascade failEnv "python3.6" ⟨"foo", "1.0"⟩ true).1 rfl (Or.inr rfl) rfl⟩

/-! ## C3: the precompiled-strategy exemption -/

theorem probeEnv_download_succeeds (n : String) (hn : (n == "cryptography") = false) :
    download_and_install_manylinux_version probeEnv ⟨n, "1.0"⟩ "python3.6" =
      Except.ok true := by
  unfold download_and_install_manylinux_version
  simp only [hn, Bool.false_eq_true, if_false]
  rfl

theorem exempt_imp_cryptography (n : String) (h : precompiledExempt n) :
    n = "cryptography" := by
  by_contra hne
  have hbeq : (n == "cryptography") = false := by
    simpa using hne
  have h2 := (h probeEnv "python3.6" "1.0").2
  rw [probeEnv_download_succeeds n hbeq] at h2
  simp at h2

/-- C3 counterexample: it is not the case that two distinct dependency
names are both exempt from the precompiled-match strategies. -/
theorem C3_counterexample :
    (∃ n₁ n₂ : String, n₁ ≠ n₂ ∧ precompiledExempt n₁ ∧ precompiledExempt n₂) ↔
      False := by
  refine iff_false_intro ?_
  rintro ⟨n₁, n₂, hne, h₁, h₂⟩
  exact hne ((exempt_imp_cryptography n₁ h₁).trans (exempt_imp_cryptography n₂ h₂).symm)

/-- C3 amended: exactly one dependency name, `cryptography`, is exempt from
the precompiled-match strategies — for it the cached lookup and the
download strategy unconditionally report failure, and no other name has
this property — so the installer always routes it to the local-source
install. -/
theorem C3_amended :
    precompiledExempt "cryptography" ∧
    (∀ n, precompiledExempt n → n = "cryptography") ∧
    (∀ (env : InstallEnv) (runtime version : String) (download : Bool),
      _install_dependency env runtime ⟨"cryptography", version⟩ download =
        _install_dependency_local env ⟨"cryptography", version⟩) := by
  refine ⟨fun env runtime version => ⟨rfl, rfl⟩, exempt_imp_cryptography, ?_⟩
  intro env runtime version download
  cases download <;> rfl

/-- C3 witness: with a failing local install, `cryptography==1.0` is routed
to (and fails in) the local-source strategy even though `probeEnv` offers a
perfectly matching downloadable wheel. -/
theorem C3_amended_witness :
    _install_dependency probeEnv "python3.6" ⟨"cryptography", "1.0"⟩ true =
      _install_dependency_local probeEnv ⟨"cryptography", "1.0"⟩ :=
  C3_amended.2.2 probeEnv "python3.6" "1.0" true


/-! ## C5 and C6: the platform-tag resolver -/

/-- C5: for every recognized runtime tag the produced suffix list is most
specific first: exact interpreter-ABI + platform tags (platform baseline
never getting newer again) come first, then the ABI-agnostic
wide-compatibility tags, and the fully architecture-independent tags are
last. -/
theorem C5_suffixes_most_specific_first (runtime : String)
    (h : runtime ∈ available_runtimes) :
    ∃ warned suffixes,
      _get_wheel_suffixes_core runtime = Except.ok (warned, suffixes) ∧
      suffixesWellOrdered suffixes = true := by
  simp only [available_runtimes, List.mem_cons, List.not_mem_nil, or_false] at h
  rcases h with rfl | rfl | rfl | rfl | rfl <;> exact ⟨_, _, rfl, by decide⟩

/-- C5 witness at the recognized runtime `python3.6`. -/
theorem C5_suffixes_most_specific_first_witness :
    "python3.6" ∈ available_runtimes ∧
    ∃ warned suffixes,
      _get_wheel_suffixes_core "python3.6" = Except.ok (warned, suffixes) ∧
      suffixesWellOrdered suffixes = true :=
  ⟨by decide, C5_suffixes_most_specific_first "python3.6" (by decide)⟩

/-- C6: the platform-tag resolver raises exactly on a runtime string that
does not start with `python2.` or `python3.`; every other runtime string
produces a non-empty suffix list, with the non-fatal warning emitted
precisely when the runtime is not one of the known tags. -/
theorem C6_runtime_tag_parsing (runtime : String) :
    ((∃ e, _get_wheel_suffixes_core runtime = Except.error e) ↔
      (pyStartsWith runtime "python2." || pyStartsWith runtime "python3.") = false) ∧
    (∀ warned suffixes,
      _get_wheel_suffixes_core runtime = Except.ok (warned, suffixes) →
      warned = !(available_runtimes.contains runtime) ∧ suffixes ≠ []) := by
  cases hb : (pyStartsWith runtime "python2." || pyStartsWith runtime "python3.") with
  | false =>
    constructor
    · refine ⟨fun _ => rfl, fun _ =>
        ⟨"Runtime must start with python2. or python3. (got " ++ runtime ++ ")", ?_⟩⟩
      unfold _get_wheel_suffixes_core
      rw [hb]
      rfl
    · intro warned suffixes h
      unfold _get_wheel_suffixes_core at h
      rw [hb] at h
      simp at h
  | true =>
    constructor
    · constructor
      · rintro ⟨e, he⟩
        unfold _get_wheel_suffixes_core at he
        rw [hb] at he
        simp at he
      · intro h
        exact absurd h (by decide)
    · intro warned suffixes h
      unfold _get_wheel_suffixes_core at h
      rw [hb] at h
      simp only [Bool.not_true, Bool.false_eq_true, if_false, Except.ok.injEq,
        Prod.mk.injEq] at h
      obtain ⟨h1, h2⟩ := h
      refine ⟨h1.symm, ?_⟩
      rw [← h2]
      cases hpy : pyStartsWith runtime "python2." <;> simp

/-- C6 witness: `python2.6` matches the minimal shape but is unrecognized,
so the resolver warns and still derives a suffix list from the tag text. -/
theorem C6_runtime_tag_parsing_witness :
    _get_wheel_suffixes_core "python2.6" =
      Except.ok (true,
        ["cp26-cp26mu-manylinux2010_x86_64.whl",
         "cp26-cp26mu-manylinux1_x86_64.whl",
         "py2-none-any.whl", "py2.py3-none-any.whl"]) ∧
    (true = !(available_runtimes.contains "python2.6") ∧
      (["cp26-cp26mu-manylinux2010_x86_64.whl",
        "cp26-cp26mu-manylinux1_x86_64.whl",
        "py2-none-any.whl", "py2.py3-none-any.whl"] : List String) ≠ []) :=
  ⟨rfl, (C6_runtime_tag_parsing "python2.6").2 true
    ["cp26-cp26mu-manylinux2010_x86_64.whl",
     "cp26-cp26mu-manylinux1_x86_64.whl",
     "py2-none-any.whl", "py2.py3-none-any.whl"] rfl⟩


/-! ## C8: leniency of the introspection-output parsers -/

theorem parse_ld_library_paths_eq (lines : List String) :
    parse_ld_library_paths lines =
      (lines.filter (fun l => !pyStartsWith l "\t")).map
        (fun l => pyStripChar ':' (pyStrip l)) := by
  have haux : ∀ (ls : List String) (acc : List String),
      ls.foldl
        (fun acc line => if pyStartsWith line "\t" then acc
          else acc ++ [pyStripChar ':' (pyStrip line)]) acc =
      acc ++ (ls.filter (fun l => !pyStartsWith l "\t")).map
        (fun l => pyStripChar ':' (pyStrip l)) := by
    intro ls
    induction ls with
    | nil => intro acc; simp
    | cons x xs ih =>
      intro acc
      cases hx : pyStartsWith x "\t" with
      | true => simp [hx, ih]
      | false => simp [hx, ih]
  exact (haux lines []).trans (by simp)

/-- C8 counterexample: a line that starts with the `DT_NEEDED` tag but whose
parsed value is not a `Shared library:` entry makes
`get_dependencies_from_elf_data` raise instead of being skipped. -/
theorem C8_counterexample :
    get_dependencies_from_elf_data ["0x0000000000000001 (NEEDED) bogus"] =
      Except.error
        "unexpected value bogus while processing elf depedency data 0x0000000000000001 (NEEDED) bogus" :=
  rfl

/-- C8 amended: lines of the ELF introspection output that do not begin with
the `DT_NEEDED` tag are skipped and never cause an error, and the
search-path listing parser is total, keeping exactly the non-indented lines
stripped of whitespace and colons; but a line that does begin with the
`DT_NEEDED` tag and does not parse as a `Shared library:` entry raises an
error. -/
theorem C8_lenient_parsing_amended :
    (∀ line rest, pyStartsWith line "0x0000000000000001" = false →
      get_dependencies_from_elf_data (line :: rest) =
        get_dependencies_from_elf_data rest) ∧
    (∀ lines, parse_ld_library_paths lines =
      (lines.filter (fun l => !pyStartsWith l "\t")).map
        (fun l => pyStripChar ':' (pyStrip l))) ∧
    (∀ line rest, pyStartsWith line "0x0000000000000001" = true →
      (∀ tag kind value, parse_elf_dependency_line line = some (tag, kind, value) →
        pyStartsWith value "Shared library:" = false) →
      ∃ e, get_dependencies_from_elf_data (line :: rest) = Except.error e) := by
  refine ⟨?_, parse_ld_library_paths_eq, ?_⟩
  · intro line rest h
    conv_lhs => unfold get_dependencies_from_elf_data
    simp [h]
  · intro line rest h hval
    cases hp : parse_elf_dependency_line line with
    | none =>
      refine ⟨"AttributeError: NoneType object has no attribute startswith", ?_⟩
      simp [get_dependencies_from_elf_data, h, hp]
    | some v =>
      obtain ⟨tag, kind, value⟩ := v
      refine ⟨"unexpected value " ++ value ++
        " while processing elf depedency data " ++ line, ?_⟩
      simp [get_dependencies_from_elf_data, h, hp, hval tag kind value hp]

/-- C8 witness: a line of some other shape is skipped by the ELF parser. -/
theorem C8_lenient_parsing_amended_witness :
    pyStartsWith "some other line" "0x0000000000000001" = false ∧
    get_dependencies_from_elf_data ["some other line"] =
      get_dependencies_from_elf_data [] :=
  ⟨rfl, C8_lenient_parsing_amended.1 "some other line" [] rfl⟩

/-! ## C9: the archive builder -/

theorem string_mk_data (s : String) : String.mk s.data = s := rfl

theorem dropWhile_slash_of_not_starts {s : String}
    (h : pyStartsWith s "/" = false) : s.data.dropWhile (· == '/') = s.data := by
  cases hd : s.data with
  | nil => rfl
  | cons c cs =>
    unfold pyStartsWith at h
    rw [hd] at h
    have hdm : (("/" : String).data) = ['/'] := rfl
    rw [hdm] at h
    simp only [List.isPrefixOf, Bool.and_true] at h
    have hne : c ≠ '/' := fun hc => by simp [hc] at h
    simp [List.dropWhile_cons, hne]

/-- C9: every archive entry written by `create_zip_bundle` carries the fixed
normalized `0o755` permission value regardless of the staged file mode, and
is named by the staged file path relative to the staging root. -/
theorem C9_zip_entries_normalized (root : String) (files : List StagedFile)
    (hroot1 : root ≠ "") (hroot2 : pyEndsWith root "/" = false)
    (hrel : ∀ f ∈ files, pyStartsWith f.relPath "/" = false) :
    create_zip_bundle root files =
      files.map (fun f =>
        { name := f.relPath, external_attr := 0o755 <<< 16,
          compress_type := ZIP_DEFLATED }) := by
  unfold create_zip_bundle
  apply List.map_congr_left
  intro f hf
  show ({ name := String.mk
            ((pyDrop (osPathJoin root f.relPath) root.length).data.dropWhile (· == '/')),
          external_attr := 0o755 <<< 16, compress_type := ZIP_DEFLATED } : ZipEntryInfo) =
      { name := f.relPath, external_attr := 0o755 <<< 16, compress_type := ZIP_DEFLATED }
  have hjoin : osPathJoin root f.relPath = root ++ "/" ++ f.relPath := by
    unfold osPathJoin
    simp [hrel f hf, hroot1, hroot2]
  rw [hjoin]
  have hdm : (("/" : String).data) = ['/'] := rfl
  have hdata : (root ++ "/" ++ f.relPath).data = root.data ++ '/' :: f.relPath.data := by
    rw [String.data_append, String.data_append, hdm]
    simp
  have hname : pyDrop (root ++ "/" ++ f.relPath) root.length =
      String.mk ('/' :: f.relPath.data) := by
    unfold pyDrop
    rw [hdata]
    show String.mk ((root.data ++ '/' :: f.relPath.data).drop root.data.length) =
      String.mk ('/' :: f.relPath.data)
    rw [List.drop_left]
  rw [hname]
  show ({ name := String.mk (('/' :: f.relPath.data).dropWhile (· == '/')),
          external_attr := 0o755 <<< 16, compress_type := ZIP_DEFLATED } : ZipEntryInfo) =
      { name := f.relPath, external_attr := 0o755 <<< 16, compress_type := ZIP_DEFLATED }
  rw [List.dropWhile_cons]
  simp only [beq_self_eq_true, if_true]
  rw [dropWhile_slash_of_not_starts (hrel f hf)]

/-- C9 witness: a staged file with restrictive mode `0o600` still gets the
normalized attributes and its root-relative name. -/
theorem C9_zip_entries_normalized_witness :
    ("/tmp/stage" : String) ≠ "" ∧
    pyEndsWith "/tmp/stage" "/" = false ∧
    create_zip_bundle "/tmp/stage" [⟨"pkg/mod.py", 0o600⟩] =
      ([⟨"pkg/mod.py", 0o600⟩] : List StagedFile).map (fun f =>
        ({ name := f.relPath, external_attr := 0o755 <<< 16,
           compress_type := ZIP_DEFLATED } : ZipEntryInfo)) :=
  ⟨by decide, rfl,
    C9_zip_entries_normalized "/tmp/stage" [⟨"pkg/mod.py", 0o600⟩] (by decide) rfl
      (fun f hf => by
        rw [List.mem_singleton] at hf
        subst hf
        rfl)⟩


/-! ## C7: case- and separator-insensitive cache lookup -/

theorem char_toNat_ofNat_valid {n : Nat} (h : n.isValidChar) :
    (Char.ofNat n).toNat = n := by
  unfold Char.ofNat
  rw [dif_pos h]
  rfl

theorem char_toLower_eq (c : Char) :
    Char.toLower c =
      if c.toNat ≥ 65 ∧ c.toNat ≤ 90 then Char.ofNat (c.toNat + 32) else c := rfl

theorem charToLower_idem (c : Char) : (Char.toLower c).toLower = Char.toLower c := by
  rw [char_toLower_eq c]
  by_cases h : c.toNat ≥ 65 ∧ c.toNat ≤ 90
  · rw [if_pos h, char_toLower_eq,
      char_toNat_ofNat_valid (n := c.toNat + 32) (Or.inl (by omega))]
    rw [if_neg (by omega)]
  · rw [if_neg h, char_toLower_eq, if_neg h]

theorem pyLower_idem (s : String) : pyLower (pyLower s) = pyLower s := by
  unfold pyLower
  congr 1
  show (s.data.map Char.toLower).map Char.toLower = s.data.map Char.toLower
  rw [List.map_map]
  exact List.map_congr_left (fun c hc => by
    simp only [Function.comp_apply]
    exact charToLower_idem c)

theorem dictContains_load_iff (walkFiles : List (String × String)) (k : String) :
    dictContains (load_cached_wheels walkFiles) k = true ↔
      ∃ rf ∈ walkFiles, pyEndsWith rf.2 ".whl" = true ∧ (k = rf.2 ∨ k = pyLower rf.2) := by
  have haux : ∀ (ls : List (String × String)) (acc : List (String × String)),
      dictContains (ls.foldl (fun ret rf =>
        if pyEndsWith rf.2 ".whl" then
          ret ++ [(rf.2, osPathJoin rf.1 rf.2), (pyLower rf.2, osPathJoin rf.1 rf.2)]
        else ret) acc) k = true ↔
      (dictContains acc k = true ∨
        ∃ rf ∈ ls, pyEndsWith rf.2 ".whl" = true ∧ (k = rf.2 ∨ k = pyLower rf.2)) := by
    intro ls
    induction ls with
    | nil => intro acc; simp
    | cons x xs ih =>
      intro acc
      rw [List.foldl_cons]
      cases hx : pyEndsWith x.2 ".whl" with
      | false =>
        simp only [hx, Bool.false_eq_true, if_false]
        rw [ih acc]
        simp [hx]
      | true =>
        simp only [hx, if_true]
        rw [ih (acc ++ [(x.2, osPathJoin x.1 x.2), (pyLower x.2, osPathJoin x.1 x.2)])]
        have hd : dictContains
            (acc ++ [(x.2, osPathJoin x.1 x.2), (pyLower x.2, osPathJoin x.1 x.2)]) k = true ↔
            (dictContains acc k = true ∨ (x.2 = k ∨ pyLower x.2 = k)) := by
          unfold dictContains
          simp [List.any_append, List.any_cons, List.any_nil, beq_iff_eq]
        rw [hd]
        constructor
        · rintro ((ha | hk | hk) | hrest)
          · exact Or.inl ha
          · exact Or.inr ⟨x, List.mem_cons_self x xs, hx, Or.inl hk.symm⟩
          · exact Or.inr ⟨x, List.mem_cons_self x xs, hx, Or.inr hk.symm⟩
          · obtain ⟨rf, hrf, h1, h2⟩ := hrest
            exact Or.inr ⟨rf, List.mem_cons_of_mem x hrf, h1, h2⟩
        · rintro (ha | ⟨rf, hrf, h1, h2⟩)
          · exact Or.inl (Or.inl ha)
          · rcases List.mem_cons.mp hrf with rfl | hrf2
            · exact Or.inl (Or.inr (h2.imp Eq.symm Eq.symm))
            · exact Or.inr ⟨rf, hrf2, h1, h2⟩
  have h0 := haux walkFiles []
  unfold load_cached_wheels
  rw [h0]
  simp [dictContains]

theorem findCachedWheel_isSome_iff (wheels : List (String × String))
    (key version : String) (suffixes : List String) :
    (findCachedWheel wheels key version suffixes).isSome = true ↔
      ∃ s ∈ suffixes,
        (dictContains wheels (pyLower (mkWheelName key version s)) = true ∨
         dictContains wheels (pyLower (mkWheelName (pyReplace key "-" "_") version s)) = true) := by
  induction suffixes with
  | nil => simp [findCachedWheel]
  | cons s rest ih =>
    unfold findCachedWheel
    cases h1 : dictContains wheels (pyLower (mkWheelName key version s)) with
    | true => simp [h1]
    | false =>
      cases h2 : dictContains wheels (pyLower (mkWheelName (pyReplace key "-" "_") version s)) with
      | true => simp [h1, h2]
      | false => simp [h1, h2, ih]


/-- C7: the cached lookup succeeds exactly when some platform-tag suffix, in
priority order, yields a wheel name matching a cached `.whl` filename under
either the literal dependency name or the name with hyphens replaced by
underscores, ignoring letter case; it reports failure only when no tag
matches under either variant. -/
theorem C7_cached_lookup_ci (walkFiles : List (String × String)) (dep : Dependency)
    (runtime : String) (suffixes : List String)
    (hs : _get_wheel_suffixes runtime = Except.ok suffixes) :
    _install_cached_manylinux_version walkFiles dep runtime = Except.ok true ↔
      ∃ s ∈ suffixes, ∃ rf ∈ walkFiles, pyEndsWith rf.2 ".whl" = true ∧
        (pyLower (mkWheelName dep.key dep.version s) = pyLower rf.2 ∨
         pyLower (mkWheelName (pyReplace dep.key "-" "_") dep.version s) = pyLower rf.2) := by
  have hiff := findCachedWheel_isSome_iff (load_cached_wheels walkFiles)
    dep.key dep.version suffixes
  have hval : ∀ w, findCachedWheel (load_cached_wheels walkFiles)
      dep.key dep.version suffixes = w →
      _install_cached_manylinux_version walkFiles dep runtime =
        (match w with | none => Except.ok false | some _ => Except.ok true) := by
    intro w hw
    unfold _install_cached_manylinux_version
    rw [hs]
    show (match findCachedWheel (load_cached_wheels walkFiles)
        dep.key dep.version suffixes with
      | none => Except.ok false
      | some _ => Except.ok true) =
      (match w with | none => Except.ok false | some _ => Except.ok true)
    rw [hw]
  have hmain : ∀ m : String,
      dictContains (load_cached_wheels walkFiles) (pyLower m) = true ↔
      ∃ rf ∈ walkFiles, pyEndsWith rf.2 ".whl" = true ∧ pyLower m = pyLower rf.2 := by
    intro m
    rw [dictContains_load_iff]
    constructor
    · rintro ⟨rf, hrf, hwhl, hk | hk⟩
      · refine ⟨rf, hrf, hwhl, ?_⟩
        rw [← hk, pyLower_idem]
      · exact ⟨rf, hrf, hwhl, hk⟩
    · rintro ⟨rf, hrf, hwhl, hk⟩
      exact ⟨rf, hrf, hwhl, Or.inr hk⟩
  constructor
  · intro h
    cases hf : findCachedWheel (load_cached_wheels walkFiles) dep.key dep.version suffixes with
    | none =>
      rw [hval none hf] at h
      simp at h
    | some w =>
      have hsome : (findCachedWheel (load_cached_wheels walkFiles)
          dep.key dep.version suffixes).isSome = true := by rw [hf]; rfl
      obtain ⟨s, hsm, hdict⟩ := hiff.mp hsome
      rcases hdict with hd | hd
      · obtain ⟨rf, hrfm, hwhl, heq⟩ := (hmain _).mp hd
        exact ⟨s, hsm, rf, hrfm, hwhl, Or.inl heq⟩
      · obtain ⟨rf, hrfm, hwhl, heq⟩ := (hmain _).mp hd
        exact ⟨s, hsm, rf, hrfm, hwhl, Or.inr heq⟩
  · rintro ⟨s, hsm, rf, hrfm, hwhl, hmatch⟩
    have hsome : (findCachedWheel (load_cached_wheels walkFiles)
        dep.key dep.version suffixes).isSome = true := by
      apply hiff.mpr
      refine ⟨s, hsm, ?_⟩
      rcases hmatch with hm | hm
      · exact Or.inl ((hmain _).mpr ⟨rf, hrfm, hwhl, hm⟩)
      · exact Or.inr ((hmain _).mpr ⟨rf, hrfm, hwhl, hm⟩)
    cases hf : findCachedWheel (load_cached_wheels walkFiles) dep.key dep.version suffixes with
    | none => rw [hf] at hsome; simp at hsome
    | some w => rw [hval (some w) hf]

/-- C7 witness: the dependency `Foo-Bar` matches a cached artifact filed as
`foo_bar-1.0-<tag>`. -/
theorem C7_cached_lookup_ci_witness :
    _get_wheel_suffixes "python2.7" = Except.ok
      ["cp27-cp27mu-manylinux2010_x86_64.whl", "cp27-cp27mu-manylinux1_x86_64.whl",
       "py2-none-any.whl", "py2.py3-none-any.whl"] ∧
    _install_cached_manylinux_version
      [("/cache", "foo_bar-1.0-cp27-cp27mu-manylinux2010_x86_64.whl")]
      ⟨"Foo-Bar", "1.0"⟩ "python2.7" = Except.ok true :=
  ⟨rfl,
    (C7_cached_lookup_ci
      [("/cache", "foo_bar-1.0-cp27-cp27mu-manylinux2010_x86_64.whl")]
      ⟨"Foo-Bar", "1.0"⟩ "python2.7"
      ["cp27-cp27mu-manylinux2010_x86_64.whl", "cp27-cp27mu-manylinux1_x86_64.whl",
       "py2-none-any.whl", "py2.py3-none-any.whl"] rfl).mpr
      ⟨"cp27-cp27mu-manylinux2010_x86_64.whl", by decide,
       ("/cache", "foo_bar-1.0-cp27-cp27mu-manylinux2010_x86_64.whl"), by decide,
       by decide, Or.inr (by decide)⟩⟩


/-! ## The shared-object closure: membership, shape, termination -/

theorem find_shared_objects_zero_eq (env : SOEnv) (paths : List String)
    (ignored : Option (List String)) (sos : List String) :
    find_shared_objects env paths ignored 0 sos = none := rfl

theorem find_shared_objects_succ_eq (env : SOEnv) (paths : List String)
    (ignored : Option (List String)) (fuel : Nat) (sos : List String) :
    find_shared_objects env paths ignored (fuel + 1) sos =
      match fsoGo env paths ignored (find_shared_objects env paths ignored fuel) sos with
      | some (Except.ok ret) => some (Except.ok (sortedDedup ret))
      | other => other := rfl

theorem fsoGo_cons_eq (env : SOEnv) (paths : List String)
    (ignored : Option (List String))
    (recurse : List String → Option (Except String (List String)))
    (so : String) (rest deps : List String)
    (hd : find_shared_object_dependencies env so paths ignored = Except.ok deps) :
    fsoGo env paths ignored recurse (so :: rest) =
      match recurse deps with
      | none => none
      | some (Except.error e) => some (Except.error e)
      | some (Except.ok sub) =>
        match fsoGo env paths ignored recurse rest with
        | none => none
        | some (Except.error e) => some (Except.error e)
        | some (Except.ok subRest) => some (Except.ok (so :: sub ++ subRest)) := by
  conv_lhs => unfold fsoGo
  rw [hd]

theorem fsoGo_mem (env : SOEnv) (paths : List String) (ignored : Option (List String))
    (recurse : List String → Option (Except String (List String)))
    (hrec : ∀ l r, recurse l = some (Except.ok r) →
      ∀ x, x ∈ r ↔ ∃ s ∈ l, Reaches env paths ignored s x) :
    ∀ sos r, fsoGo env paths ignored recurse sos = some (Except.ok r) →
      ∀ x, x ∈ r ↔ ∃ s ∈ sos, Reaches env paths ignored s x := by
  intro sos
  induction sos with
  | nil =>
    intro r h x
    have hr : ([] : List String) = r := by simpa [fsoGo] using h
    subst hr
    simp
  | cons so rest ih =>
    intro r h x
    unfold fsoGo at h
    split at h
    · simp at h
    · rename_i deps hd
      split at h
      · simp at h
      · simp at h
      · rename_i sub hsub
        split at h
        · simp at h
        · simp at h
        · rename_i subRest hrest
          have hr : so :: sub ++ subRest = r := by simpa using h
          subst hr
          have hdOk : depsOk env paths ignored so = deps := by
            unfold depsOk
            rw [hd]
          have hsubmem := hrec deps sub hsub
          have hrestmem := ih subRest hrest
          constructor
          · intro hx
            rcases List.mem_cons.mp hx with rfl | hx2
            · exact ⟨x, List.mem_cons_self x rest, Relation.ReflTransGen.refl⟩
            · rcases List.mem_append.mp hx2 with hx3 | hx3
              · obtain ⟨d, hdm, hdreach⟩ := (hsubmem x).mp hx3
                refine ⟨so, List.mem_cons_self so rest, ?_⟩
                refine Relation.ReflTransGen.head ?_ hdreach
                show depStep env paths ignored so d
                unfold depStep
                rw [hdOk]
                exact hdm
              · obtain ⟨s, hsm, hsreach⟩ := (hrestmem x).mp hx3
                exact ⟨s, List.mem_cons_of_mem so hsm, hsreach⟩
          · rintro ⟨s, hsm, hsreach⟩
            rcases List.mem_cons.mp hsm with rfl | hsm2
            · rcases Relation.ReflTransGen.cases_head hsreach with heq | ⟨d, hstep, hdreach⟩
              · rw [← heq]
                exact List.mem_cons_self _ _
              · have hdm : d ∈ deps := by
                  have h5 : d ∈ depsOk env paths ignored s := hstep
                  rw [hdOk] at h5
                  exact h5
                have hxsub : x ∈ sub := (hsubmem x).mpr ⟨d, hdm, hdreach⟩
                exact List.mem_cons_of_mem _ (List.mem_append_left subRest hxsub)
            · have hxrest : x ∈ subRest := (hrestmem x).mpr ⟨s, hsm2, hsreach⟩
              exact List.mem_cons_of_mem so (List.mem_append_right sub hxrest)


theorem find_shared_objects_mem (env : SOEnv) (paths : List String)
    (ignored : Option (List String)) :
    ∀ fuel sos r, find_shared_objects env paths ignored fuel sos = some (Except.ok r) →
      ∀ x, x ∈ r ↔ ∃ s ∈ sos, Reaches env paths ignored s x := by
  intro fuel
  induction fuel with
  | zero =>
    intro sos r h
    rw [find_shared_objects_zero_eq] at h
    exact Option.noConfusion h
  | succ n ih =>
    intro sos r h x
    rw [find_shared_objects_succ_eq] at h
    split at h
    · rename_i ret hret
      have hr : sortedDedup ret = r := by simpa using h
      subst hr
      rw [mem_sortedDedup]
      exact fsoGo_mem env paths ignored _ (fun l r2 h2 => ih l r2 h2) sos ret hret x
    · rename_i other hne
      exact absurd h (hne r)

theorem find_shared_objects_shape (env : SOEnv) (paths : List String)
    (ignored : Option (List String)) (fuel : Nat) (sos r : List String)
    (h : find_shared_objects env paths ignored fuel sos = some (Except.ok r)) :
    r.Nodup ∧ r.Sorted pyStrLe := by
  cases fuel with
  | zero =>
    rw [find_shared_objects_zero_eq] at h
    exact Option.noConfusion h
  | succ n =>
    rw [find_shared_objects_succ_eq] at h
    split at h
    · rename_i ret hret
      have hr : sortedDedup ret = r := by simpa using h
      subst hr
      exact ⟨sortedDedup_nodup ret, sortedDedup_sorted ret⟩
    · rename_i other hne
      exact absurd h (hne r)

theorem fsod_mem_not_ignored (env : SOEnv) (so x : String) (igs : List String) :
    ∀ (paths : List String) (l : List String),
      find_shared_object_dependencies env so paths (some igs) = Except.ok l →
      x ∈ l → is_ignored_shared_object x (some igs) = false := by
  intro paths
  induction paths with
  | nil =>
    intro l h hx
    have hl : ([] : List String) = l := by
      simpa [find_shared_object_dependencies] using h
    subst hl
    simp at hx
  | cons p rest ih =>
    intro l h hx
    unfold find_shared_object_dependencies at h
    split at h
    · split at h
      · exact absurd h (by simp)
      · rename_i deps hdeps
        have hl : filterIgnored deps (some igs) = l := by
          simpa using h
        subst hl
        simp only [filterIgnored] at hx
        have hmem := List.of_mem_filter hx
        simpa using hmem
    · exact ih l h hx

theorem mem_depsOk_not_ignored (env : SOEnv) (paths : List String) (igs : List String)
    {so x : String} (hx : x ∈ depsOk env paths (some igs) so) :
    is_ignored_shared_object x (some igs) = false := by
  unfold depsOk at hx
  cases hfs : find_shared_object_dependencies env so paths (some igs) with
  | error e => rw [hfs] at hx; simp at hx
  | ok l =>
    rw [hfs] at hx
    simp only at hx
    exact fsod_mem_not_ignored env so x igs paths l hfs hx

theorem reach_ignored_mem_start (env : SOEnv) (paths : List String) (igs : List String)
    {sos : List String} {x : String}
    (hreach : ∃ s ∈ sos, Reaches env paths (some igs) s x)
    (hig : is_ignored_shared_object x (some igs) = true) : x ∈ sos := by
  obtain ⟨s, hsm, hr⟩ := hreach
  rcases Relation.ReflTransGen.cases_tail hr with heq | ⟨c, hc, hstep⟩
  · exact heq ▸ hsm
  · have hx : x ∈ depsOk env paths (some igs) c := hstep
    have hf := mem_depsOk_not_ignored env paths igs hx
    rw [hf] at hig
    simp at hig

theorem fsoGo_terminates (env : SOEnv) (paths : List String)
    (ignored : Option (List String)) (rank : String → Nat) (n : Nat)
    (hok : ∀ so, ∃ l, find_shared_object_dependencies env so paths ignored = Except.ok l)
    (hrank : ∀ so d, d ∈ depsOk env paths ignored so → rank d < rank so)
    (ihn : ∀ sos, 1 ≤ n → (∀ so ∈ sos, rank so + 1 < n) →
      ∃ r, find_shared_objects env paths ignored n sos = some (Except.ok r)) :
    ∀ sos, (∀ so ∈ sos, rank so + 1 < n + 1) →
      ∃ ret, fsoGo env paths ignored (find_shared_objects env paths ignored n) sos =
        some (Except.ok ret) := by
  intro sos
  induction sos with
  | nil => intro _; exact ⟨[], rfl⟩
  | cons so rest ihrest =>
    intro hsos
    obtain ⟨deps, hd⟩ := hok so
    have hdOk : depsOk env paths ignored so = deps := by
      unfold depsOk
      rw [hd]
    have hso := hsos so (List.mem_cons_self so rest)
    have h1n : 1 ≤ n := by omega
    obtain ⟨sub, hsub⟩ := ihn deps h1n (fun d hdm => by
      have h2 := hrank so d (by rw [hdOk]; exact hdm)
      omega)
    obtain ⟨subRest, hsubRest⟩ :=
      ihrest (fun so2 h2 => hsos so2 (List.mem_cons_of_mem so h2))
    refine ⟨so :: sub ++ subRest, ?_⟩
    rw [fsoGo_cons_eq env paths ignored _ so rest deps hd, hsub, hsubRest]

theorem find_shared_objects_terminates (env : SOEnv) (paths : List String)
    (ignored : Option (List String)) (rank : String → Nat)
    (hok : ∀ so, ∃ l, find_shared_object_dependencies env so paths ignored = Except.ok l)
    (hrank : ∀ so d, d ∈ depsOk env paths ignored so → rank d < rank so) :
    ∀ fuel, 1 ≤ fuel → ∀ sos, (∀ so ∈ sos, rank so + 1 < fuel) →
      ∃ r, find_shared_objects env paths ignored fuel sos = some (Except.ok r) := by
  intro fuel
  induction fuel with
  | zero => intro h; exact absurd h (by omega)
  | succ n ih =>
    intro _ sos hsos
    obtain ⟨ret, hret⟩ := fsoGo_terminates env paths ignored rank n hok hrank
      (fun sos2 h1 h2 => ih h1 sos2 h2) sos hsos
    refine ⟨sortedDedup ret, ?_⟩
    rw [find_shared_objects_succ_eq, hret]


/-! ## C1: termination of the closure computation -/

theorem cyclicEnv_fsod_a :
    find_shared_object_dependencies cyclicEnv "liba.so" ["/lib"] (some stdIgnored) =
      Except.ok ["libb.so"] := rfl

theorem cyclicEnv_fsod_b :
    find_shared_object_dependencies cyclicEnv "libb.so" ["/lib"] (some stdIgnored) =
      Except.ok ["liba.so"] := rfl

theorem cyclic_diverges (fuel : Nat) :
    find_shared_objects cyclicEnv ["/lib"] (some stdIgnored) fuel ["liba.so"] = none ∧
    find_shared_objects cyclicEnv ["/lib"] (some stdIgnored) fuel ["libb.so"] = none := by
  induction fuel with
  | zero => exact ⟨rfl, rfl⟩
  | succ n ih =>
    constructor
    · rw [find_shared_objects_succ_eq,
        fsoGo_cons_eq cyclicEnv ["/lib"] (some stdIgnored) _ "liba.so" [] ["libb.so"]
          cyclicEnv_fsod_a,
        ih.2]
    · rw [find_shared_objects_succ_eq,
        fsoGo_cons_eq cyclicEnv ["/lib"] (some stdIgnored) _ "libb.so" [] ["liba.so"]
          cyclicEnv_fsod_b,
        ih.1]

/-- C1 counterexample: on a cyclic dependency graph (two libraries that each
declare the other as needed) `find_shared_objects` exceeds every recursion
depth: no amount of fuel produces any result, so the Python recursion does
not terminate. -/
theorem C1_counterexample :
    (∃ (fuel : Nat) (r : Except String (List String)),
      find_shared_objects cyclicEnv ["/lib"] (some stdIgnored) fuel ["liba.so"] =
        some r) ↔ False := by
  refine iff_false_intro ?_
  rintro ⟨fuel, r, h⟩
  rw [(cyclic_diverges fuel).1] at h
  exact Option.noConfusion h

/-- C1 amended: when every introspection parse succeeds and a ranking
function witnesses that the library dependency relation is acyclic, the
closure computation terminates — with enough fuel it returns a
deduplicated, sorted list; on a cyclic dependency relation the recursion
does not terminate (see the counterexample). -/
theorem C1_closure_terminates_amended (env : SOEnv) (paths : List String)
    (ignored : Option (List String)) (rank : String → Nat)
    (hok : ∀ so, ∃ l, find_shared_object_dependencies env so paths ignored = Except.ok l)
    (hrank : ∀ so d, d ∈ depsOk env paths ignored so → rank d < rank so)
    (fuel : Nat) (sos : List String) (h1 : 1 ≤ fuel)
    (hfuel : ∀ so ∈ sos, rank so + 1 < fuel) :
    ∃ r, find_shared_objects env paths ignored fuel sos = some (Except.ok r) ∧
      r.Nodup ∧ r.Sorted pyStrLe := by
  obtain ⟨r, hr⟩ := find_shared_objects_terminates env paths ignored rank hok hrank
    fuel h1 sos hfuel
  obtain ⟨hn, hs⟩ := find_shared_objects_shape env paths ignored fuel sos r hr
  exact ⟨r, hr, hn, hs⟩

/-- C1 witness: on a filesystem with no resolvable libraries the constant
ranking works and the closure of `["liba.so"]` is computed with fuel 3. -/
theorem C1_closure_terminates_amended_witness :
    (∀ so, ∃ l, find_shared_object_dependencies emptyEnv so ["/lib"]
      (some stdIgnored) = Except.ok l) ∧
    (∀ so d, d ∈ depsOk emptyEnv ["/lib"] (some stdIgnored) so →
      (fun _ => 0 : String → Nat) d < (fun _ => 0 : String → Nat) so) ∧
    (1 : Nat) ≤ 3 ∧
    (∀ so ∈ (["liba.so"] : List String), (fun _ => 0 : String → Nat) so + 1 < 3) ∧
    ∃ r, find_shared_objects emptyEnv ["/lib"] (some stdIgnored) 3 ["liba.so"] =
        some (Except.ok r) ∧ r.Nodup ∧ r.Sorted pyStrLe := by
  have hok : ∀ so, ∃ l, find_shared_object_dependencies emptyEnv so ["/lib"]
      (some stdIgnored) = Except.ok l := fun so => ⟨[], rfl⟩
  have hrank : ∀ so d, d ∈ depsOk emptyEnv ["/lib"] (some stdIgnored) so →
      (fun _ => 0 : String → Nat) d < (fun _ => 0 : String → Nat) so := by
    intro so d hd
    exact absurd (show d ∈ ([] : List String) from hd) (by simp)
  have hfuel : ∀ so ∈ (["liba.so"] : List String),
      (fun _ => 0 : String → Nat) so + 1 < 3 := by
    intro so hso
    simp
  exact ⟨hok, hrank, by omega, hfuel,
    C1_closure_terminates_amended emptyEnv ["/lib"] (some stdIgnored) (fun _ => 0)
      hok hrank 3 ["liba.so"] (by omega) hfuel⟩

/-! ## C4: idempotence and order-independence of the closure -/

/-- C4 counterexample: the result of `find_shared_objects` can contain an
ignored base-system library, because starting elements bypass the ignore
filter: starting from `["libc.so"]` the result contains `libc.so`, whose
name is in the ignore list. -/
theorem C4_counterexample :
    find_shared_objects emptyEnv ["/lib"] (some stdIgnored) 2 ["libc.so"] =
      some (Except.ok ["libc.so"]) ∧
    is_ignored_shared_object "libc.so" (some stdIgnored) = true := ⟨rfl, rfl⟩

/-- C4 amended: whenever the closure computation terminates it is
order-independent (permuted starting lists give the same result list) and
idempotent (running it on its own output returns that output); and every
ignored base-system library in the result comes from the starting list
itself — elements discovered transitively are never ignored ones. -/
theorem C4_closure_amended (env : SOEnv) (paths : List String) (igs : List String)
    (S1 S2 : List String) (f1 f2 g : Nat) (r1 r2 r : List String)
    (hperm : S1.Perm S2)
    (h1 : find_shared_objects env paths (some igs) f1 S1 = some (Except.ok r1))
    (h2 : find_shared_objects env paths (some igs) f2 S2 = some (Except.ok r2))
    (h3 : find_shared_objects env paths (some igs) g r1 = some (Except.ok r)) :
    r1 = r2 ∧ r = r1 ∧
      ∀ x ∈ r1, is_ignored_shared_object x (some igs) = true → x ∈ S1 := by
  have hm1 := find_shared_objects_mem env paths (some igs) f1 S1 r1 h1
  have hm2 := find_shared_objects_mem env paths (some igs) f2 S2 r2 h2
  have hm3 := find_shared_objects_mem env paths (some igs) g r1 r h3
  obtain ⟨hn1, hs1⟩ := find_shared_objects_shape env paths (some igs) f1 S1 r1 h1
  obtain ⟨hn2, hs2⟩ := find_shared_objects_shape env paths (some igs) f2 S2 r2 h2
  obtain ⟨hn3, hs3⟩ := find_shared_objects_shape env paths (some igs) g r1 r h3
  refine ⟨?_, ?_, ?_⟩
  · apply sorted_nodup_eq_of_mem_iff hs1 hs2 hn1 hn2
    intro x
    rw [hm1 x, hm2 x]
    constructor
    · rintro ⟨s, hsm, hr⟩
      exact ⟨s, hperm.mem_iff.mp hsm, hr⟩
    · rintro ⟨s, hsm, hr⟩
      exact ⟨s, hperm.mem_iff.mpr hsm, hr⟩
  · apply sorted_nodup_eq_of_mem_iff hs3 hs1 hn3 hn1
    intro x
    rw [hm3 x]
    constructor
    · rintro ⟨a, ham, har⟩
      obtain ⟨s, hsm, hsr⟩ := (hm1 a).mp ham
      exact (hm1 x).mpr ⟨s, hsm, hsr.trans har⟩
    · intro hx
      exact ⟨x, hx, Relation.ReflTransGen.refl⟩
  · intro x hx hig
    exact reach_ignored_mem_start env paths igs ((hm1 x).mp hx) hig

/-- C4 witness: two permuted starting lists both produce the sorted closure
`["a.so", "b.so"]`, and re-running the closure on that output returns it. -/
theorem C4_closure_amended_witness :
    (["b.so", "a.so"] : List String).Perm ["a.so", "b.so"] ∧
    find_shared_objects emptyEnv ["/lib"] (some stdIgnored) 2 ["b.so", "a.so"] =
      some (Except.ok ["a.so", "b.so"]) ∧
    find_shared_objects emptyEnv ["/lib"] (some stdIgnored) 2 ["a.so", "b.so"] =
      some (Except.ok ["a.so", "b.so"]) ∧
    (["a.so", "b.so"] : List String) = ["a.so", "b.so"] ∧
    (["a.so", "b.so"] : List String) = ["a.so", "b.so"] ∧
    (∀ x ∈ (["a.so", "b.so"] : List String),
      is_ignored_shared_object x (some stdIgnored) = true → x ∈ ["b.so", "a.so"]) := by
  have hmain := C4_closure_amended emptyEnv ["/lib"] stdIgnored
    ["b.so", "a.so"] ["a.so", "b.so"] 2 2 2
    ["a.so", "b.so"] ["a.so", "b.so"] ["a.so", "b.so"]
    (by decide) rfl rfl rfl
  exact ⟨by decide, rfl, rfl, hmain.1, hmain.2.1, hmain.2.2⟩

/-! ## C10: starting elements always appear in the closure -/

/-- C10: every element of the starting shared-object list appears in the
result of `find_shared_objects` — including elements whose names carry an
ignored base-system prefix — and the ignore filter applies only to
transitively discovered dependencies: any ignored name in the result was
already in the starting list. -/
theorem C10_initial_always_included (env : SOEnv) (paths : List String)
    (igs : List String) (fuel : Nat) (sos r : List String)
    (h : find_shared_objects env paths (some igs) fuel sos = some (Except.ok r)) :
    (∀ s ∈ sos, s ∈ r) ∧
    (∀ x ∈ r, is_ignored_shared_object x (some igs) = true → x ∈ sos) := by
  have hm := find_shared_objects_mem env paths (some igs) fuel sos r h
  constructor
  · intro s hs
    exact (hm s).mpr ⟨s, hs, Relation.ReflTransGen.refl⟩
  · intro x hx hig
    exact reach_ignored_mem_start env paths igs ((hm x).mp hx) hig

/-- C10 witness: the ignored library `libc.so`, supplied as a starting
element, still appears in the closure result. -/
theorem C10_initial_always_included_witness :
    find_shared_objects emptyEnv ["/lib"] (some stdIgnored) 2 ["libc.so"] =
      some (Except.ok ["libc.so"]) ∧
    ((∀ s ∈ (["libc.so"] : List String), s ∈ (["libc.so"] : List String)) ∧
     (∀ x ∈ (["libc.so"] : List String),
       is_ignored_shared_object x (some stdIgnored) = true →
         x ∈ (["libc.so"] : List String))) :=
  ⟨rfl, C10_initial_always_included emptyEnv ["/lib"] stdIgnored 2
    ["libc.so"] ["libc.so"] rfl⟩


end Spindrift

